import Mathlib

/-!
Shallow embedding of the VCMI object-class registry subsystem
(`lib/mapObjects/CObjectClassesHandler.h` and the legacy
`CDefObjInfoHandler.h` fragment).

Numeric C++ types: `si32` is modelled as `Int`, `ui32`/`ui8` as `Nat`
(the code never overflows them in the operations modelled here; the
only arithmetic is comparison and zero-initialisation).

Repository code that exists only as declarations in the header (the
`.cpp` bodies of `loadObject`, `loadSubObject`, `removeSubObject`,
`getHandlerFor`, `knownObjects`, `knownSubObjects`, `getTemplates`) is
modelled from the spec; each such definition carries a doc comment
beginning `Modelled from the spec:`.  Everything else (the inline
`serialize` templates, `CArmyStructure`, the `IObjectInfo` virtual
defaults, `CGDefInfo::operator<`) is translated directly from the
header source.
-/

/-- Modelled from the spec: the JSON configuration tree is an external
collaborator ("a JSON-like configuration-tree type supporting field
lookup by key"); it is reduced here to the two fields the registry
reads when creating a per-type container (human-readable name and
handler name). -/
structure JsonNode where
  name : String := ""
  handlerName : String := ""
deriving DecidableEq, Repr

/-- Structure `RandomMapInfo` from the header: four `ui32` fields, all
zero-initialised by the constructor. -/
structure RandomMapInfo where
  value : Nat := 0
  mapLimit : Nat := 0
  zoneLimit : Nat := 0
  rarity : Nat := 0
deriving DecidableEq, Repr

/-- Modelled from the spec: `ObjectTemplate` is an external value type
("terrain mask, sprite reference, bounding geometry"); reduced to the
terrain mask (the set of accepted terrain ids) and a sprite name. -/
structure ObjectTemplate where
  allowedTerrains : List Int := []
  animationFile : String := ""
deriving DecidableEq, Repr

/-- Modelled from the spec: the terrain mask of a template accepts a
terrain type iff that terrain id is in the mask. -/
def ObjectTemplate.canBePlacedAt (t : ObjectTemplate) (terrainType : Int) : Bool :=
  t.allowedTerrains.contains terrainType

/-- Structure `IObjectInfo::CArmyStructure` from the header: four `ui32`
strength components, all zero-initialised by the constructor. -/
structure CArmyStructure where
  totalStrength : Nat := 0
  shootersStrength : Nat := 0
  flyersStrength : Nat := 0
  walkersStrength : Nat := 0
deriving DecidableEq, Repr

/-- Source `CArmyStructure::operator<` from the header:
`this->totalStrength < other.totalStrength`. -/
def CArmyStructure.lt (a b : CArmyStructure) : Bool :=
  decide (a.totalStrength < b.totalStrength)

/-- Record `IObjectInfo` from the header, modelled as a record of the virtual
methods; the field defaults are exactly the C++ base-class default
implementations (`CArmyStructure()` for the guard bounds, `false` for
every capability query). -/
structure IObjectInfo where
  minGuards : CArmyStructure := {}
  maxGuards : CArmyStructure := {}
  givesResources : Bool := false
  givesExperience : Bool := false
  givesMana : Bool := false
  givesMovement : Bool := false
  givesPrimarySkills : Bool := false
  givesSecondarySkills : Bool := false
  givesArtifacts : Bool := false
  givesCreatures : Bool := false
  givesSpells : Bool := false
  givesBonuses : Bool := false
deriving DecidableEq, Repr

/-- The default-constructed `IObjectInfo`: every virtual method left at
its base-class implementation. -/
def IObjectInfo.base : IObjectInfo := {}

/-- Data of `AObjectTypeHandler` from the header: rmg info, optional
object name, base config, template list, the two string identity
fields and the two numeric identity fields. -/
structure AObjectTypeHandler where
  rmgInfo : RandomMapInfo := {}
  objectName : Option String := none
  base : JsonNode := {}
  templates : List ObjectTemplate := []
  typeName : String := ""
  subTypeName : String := ""
  type : Int := -1
  subtype : Int := -1
deriving DecidableEq, Repr

/-- Modelled from the spec: `getTemplates()` "returns all templates
... preserving insertion order". -/
def AObjectTypeHandler.getTemplates (h : AObjectTypeHandler) : List ObjectTemplate :=
  h.templates

/-- Modelled from the spec: `getTemplates(terrainType)` returns "only
those whose terrain mask accepts terrainType, preserving insertion
order". -/
def AObjectTypeHandler.getTemplatesTerrain (h : AObjectTypeHandler) (terrainType : Int) :
    List ObjectTemplate :=
  h.templates.filter (fun t => t.canBePlacedAt terrainType)

/-- Structure `CObjectClassesHandler::ObjectContainter` from the header (the
misspelling is the source's): numeric id, qualified string identifier,
human-readable name, handler name, base config, the owning
subtype-to-handler map and the reverse string-id-to-subtype map.
The two `std::map` fields are modelled as association lists. -/
structure ObjectContainter where
  id : Int := 0
  identifier : String := ""
  name : String := ""
  handlerName : String := ""
  base : JsonNode := {}
  subObjects : List (Int × AObjectTypeHandler) := []
  subIds : List (String × Int) := []
deriving DecidableEq, Repr

/-- A default-constructed container (all fields at their defaults; the
C++ struct leaves `id` uninitialised, fixed here to `0`). -/
def ObjectContainter.fresh : ObjectContainter := {}

/-- State of `CObjectClassesHandler` from the header: the
primary-type-to-container map (association list).  The
handler-constructor map, legacy-template staging and custom-name
staging are load-time-only collaborators and carry no observable
registry state, so they are not part of the model. -/
structure CObjectClassesHandler where
  objects : List (Int × ObjectContainter) := []
deriving DecidableEq, Repr

/-- Structure `CGDefInfo` from the legacy `CDefObjInfoHandler.h` fragment. The
`CDefEssential *` handler pointer is an external resource and omitted. -/
structure CGDefInfo where
  name : String := ""
  visitMap : List Nat := []
  blockMap : List Nat := []
  coverageMap : List Nat := []
  shadowCoverage : List Nat := []
  visitDir : Nat := 0
  id : Int := 0
  subid : Int := 0
  terrainAllowed : Int := 0
  terrainMenu : Int := 0
  width : Int := 0
  height : Int := 0
  type : Int := 0
  printPriority : Int := 0
deriving DecidableEq, Repr

/-- Source `CGDefInfo::operator<` from the header:
`if(id!=por.id) return id<por.id; else return subid<por.subid;`. -/
def CGDefInfo.lt (a b : CGDefInfo) : Bool :=
  if a.id ≠ b.id then decide (a.id < b.id) else decide (a.subid < b.subid)

/-! Association-list primitives.

`std::map` operations used by the registry, modelled on association
lists: lookup of the first binding, insertion (replacing any previous
binding of the key) and erasure. -/

/-- Lookup of the first binding of a key. -/
def alookup {α β : Type} [DecidableEq α] : List (α × β) → α → Option β
  | [], _ => none
  | (k, v) :: rest, a => if k = a then some v else alookup rest a

/-- Remove every binding of a key. -/
def aerase {α β : Type} [DecidableEq α] (l : List (α × β)) (k : α) : List (α × β) :=
  l.filter (fun p => p.1 != k)

/-- Insert a binding, replacing any previous binding of the key. -/
def ainsert {α β : Type} [DecidableEq α] (l : List (α × β)) (k : α) (v : β) :
    List (α × β) :=
  (k, v) :: aerase l k

/-- The keys of an association list. -/
def akeys {α β : Type} (l : List (α × β)) : List α :=
  l.map Prod.fst

theorem alookup_aerase {α β : Type} [DecidableEq α] (l : List (α × β)) (k a : α) :
    alookup (aerase l k) a = if a = k then none else alookup l a := by
  induction l with
  | nil => simp [aerase, alookup]
  | cons p rest ih =>
    obtain ⟨k₁, v₁⟩ := p
    by_cases h₁ : k₁ = k
    · subst h₁
      have he : aerase ((k₁, v₁) :: rest) k₁ = aerase rest k₁ := by
        simp [aerase]
      rw [he, ih]
      by_cases h₂ : a = k₁
      · simp [h₂]
      · simp [h₂, alookup, Ne.symm h₂]
    · have he : aerase ((k₁, v₁) :: rest) k = (k₁, v₁) :: aerase rest k := by
        simp [aerase, h₁]
      rw [he]
      by_cases h₂ : k₁ = a
      · subst h₂
        simp [alookup, h₁]
      · simp [alookup, h₂, ih]

theorem alookup_ainsert {α β : Type} [DecidableEq α] (l : List (α × β)) (k a : α) (v : β) :
    alookup (ainsert l k v) a = if k = a then some v else alookup l a := by
  by_cases h : k = a
  · simp [ainsert, alookup, h]
  · have h₂ : ¬ a = k := fun hh => h hh.symm
    simp [ainsert, alookup, h, alookup_aerase, h₂]

theorem alookup_mem {α β : Type} [DecidableEq α] {l : List (α × β)} {a : α} {v : β}
    (h : alookup l a = some v) : (a, v) ∈ l := by
  induction l with
  | nil => simp [alookup] at h
  | cons p rest ih =>
    obtain ⟨k₁, v₁⟩ := p
    by_cases h₁ : k₁ = a
    · subst h₁
      simp [alookup] at h
      subst h
      exact List.mem_cons_self _ _
    · simp [alookup, h₁] at h
      exact List.mem_cons_of_mem _ (ih h)

theorem mem_akeys_exists {α β : Type} {l : List (α × β)} {a : α}
    (h : a ∈ akeys l) : ∃ v, (a, v) ∈ l := by
  simp only [akeys, List.mem_map] at h
  obtain ⟨⟨k, v⟩, hm, hk⟩ := h
  cases hk
  exact ⟨v, hm⟩

theorem alookup_none_not_mem {α β : Type} [DecidableEq α] {l : List (α × β)} {a : α}
    (h : alookup l a = none) : a ∉ akeys l := by
  induction l with
  | nil => simp [akeys]
  | cons p rest ih =>
    obtain ⟨k₁, v₁⟩ := p
    by_cases h₁ : k₁ = a
    · simp [alookup, h₁] at h
    · simp [alookup, h₁] at h
      intro hm
      simp only [akeys, List.map_cons, List.mem_cons] at hm
      rcases hm with hm | hm
      · exact h₁ hm.symm
      · exact ih h hm

theorem mem_akeys_alookup {α β : Type} [DecidableEq α] {l : List (α × β)} {a : α}
    (h : a ∈ akeys l) : ∃ v, alookup l a = some v := by
  cases hl : alookup l a with
  | none => exact absurd h (alookup_none_not_mem hl)
  | some v => exact ⟨v, rfl⟩

theorem alookup_of_not_mem {α β : Type} [DecidableEq α] {l : List (α × β)} {a : α}
    (h : a ∉ akeys l) : alookup l a = none := by
  cases hl : alookup l a with
  | none => rfl
  | some v =>
    exfalso
    apply h
    simp only [akeys, List.mem_map]
    exact ⟨(a, v), alookup_mem hl, rfl⟩

theorem mem_akeys_of_alookup {α β : Type} [DecidableEq α] {l : List (α × β)} {a : α} {v : β}
    (h : alookup l a = some v) : a ∈ akeys l := by
  simp only [akeys, List.mem_map]
  exact ⟨(a, v), alookup_mem h, rfl⟩

/-! Registry operations.

The bodies of these member functions live in `CObjectClassesHandler.cpp`,
which is not part of this fragment; they are modelled from the spec
(§4.2 "ClassRegistry" contract and §7 error taxonomy). -/

/-- Error taxonomy from spec §7, restricted to the conditions the
modelled operations can raise. -/
inductive RegistryError
  | DuplicateDefinition
  | UnknownType
  | UnknownSubtype
deriving DecidableEq, Repr

/-- Modelled from the spec: a qualified identifier is the
"scope:name" string. -/
def qualifiedName (scope name : String) : String :=
  scope ++ ":" ++ name

/-- Modelled from the spec: whether some container already carries the
given qualified string identifier. -/
def CObjectClassesHandler.registeredName (reg : CObjectClassesHandler) (q : String) : Bool :=
  reg.objects.any (fun p => p.2.identifier == q)

/-- The next free numeric id of an association list: one past the
largest key in use (and `0` on an empty map), modelling "the registry
assigns the next free id". -/
def nextFreeId {β : Type} (l : List (Int × β)) : Int :=
  (akeys l).foldr (fun k m => max (k + 1) m) 0

/-- Modelled from the spec: `loadObject(scope, name, data)` and its
indexed overload (`index = some i` reserves numeric id `i`).
"Register one primary-type entry from configuration. If explicitIndex
given, that numeric id is reserved; otherwise the registry assigns the
next free id. Re-registering the same qualified name must fail loudly
(duplicate-definition error), never silently overwrite."  The model is
state-passing, so a returned error leaves the caller's registry value
untouched (atomicity of a failed call). -/
def CObjectClassesHandler.loadObject (reg : CObjectClassesHandler)
    (scope name : String) (data : JsonNode) (index : Option Int) :
    Except RegistryError CObjectClassesHandler :=
  let q := qualifiedName scope name
  if reg.registeredName q then
    .error .DuplicateDefinition
  else
    let i := match index with
      | some i => i
      | none => nextFreeId reg.objects
    if (alookup reg.objects i).isSome then
      .error .DuplicateDefinition
    else
      let cont : ObjectContainter :=
        { id := i, identifier := q, name := data.name,
          handlerName := data.handlerName, base := data,
          subObjects := [], subIds := [] }
      .ok { objects := ainsert reg.objects i cont }

/-- Modelled from the spec: `loadSubObject(identifier, config, typeId,
optionalSubId)` "constructs a TypeHandler via the registered
handler-name constructor, calls its init, inserts it into the parent
TypeContainer under a resolved or newly-assigned subtype id, and
records the reverse string-id mapping. Fails if typeId is unknown."
The subtype id is resolved through the reverse map when the qualified
sub-identifier is already known ("subtype ids are stable once
assigned"), otherwise the explicit sub-id is used when given, otherwise
the next free id is assigned.  Both per-container maps are updated
together in the single insertion (spec §9: "two synchronized maps per
container ... updated together under a single insertion/removal
operation").  The handler's identity fields are set as by
`setType`/`setTypeName`. -/
def CObjectClassesHandler.loadSubObject (reg : CObjectClassesHandler)
    (identifier : String) (config : JsonNode) (ID : Int) (subID : Option Int) :
    Except RegistryError CObjectClassesHandler :=
  match alookup reg.objects ID with
  | none => .error .UnknownType
  | some c =>
    let sid := match alookup c.subIds identifier with
      | some existing => existing
      | none => match subID with
        | some s => s
        | none => nextFreeId c.subObjects
    let h : AObjectTypeHandler :=
      { typeName := c.identifier, subTypeName := identifier,
        type := ID, subtype := sid, base := config }
    let cont : ObjectContainter :=
      { c with subObjects := ainsert c.subObjects sid h,
               subIds := ainsert c.subIds identifier sid }
    .ok { objects := ainsert reg.objects ID cont }

/-- Modelled from the spec: `removeSubObject(typeId, subTypeId)`
"removes a handler; must also remove its reverse string-id entry.
Removing a non-existent pair is a no-op".  Both per-container maps are
updated together in the single removal. -/
def CObjectClassesHandler.removeSubObject (reg : CObjectClassesHandler)
    (ID subID : Int) : CObjectClassesHandler :=
  match alookup reg.objects ID with
  | none => reg
  | some c =>
    let cont : ObjectContainter :=
      { c with subObjects := aerase c.subObjects subID,
               subIds := c.subIds.filter (fun p => p.2 != subID) }
    { objects := ainsert reg.objects ID cont }

/-- Modelled from the spec: `knownObjects()` "returns the set of
registered numeric ids" of primary types. -/
def CObjectClassesHandler.knownObjects (reg : CObjectClassesHandler) : List Int :=
  akeys reg.objects

/-- Modelled from the spec: `knownSubObjects(primaryType)` returns the
registered subtype ids under a primary type (none for an unknown
type). -/
def CObjectClassesHandler.knownSubObjects (reg : CObjectClassesHandler)
    (primaryID : Int) : List Int :=
  match alookup reg.objects primaryID with
  | none => []
  | some c => akeys c.subObjects

/-- Modelled from the spec: numeric `getHandlerFor(type, subtype)`;
"non-owning lookup; fails with a not-found condition if either level
is absent". -/
def CObjectClassesHandler.getHandlerFor (reg : CObjectClassesHandler)
    (type subtype : Int) : Except RegistryError AObjectTypeHandler :=
  match alookup reg.objects type with
  | none => .error .UnknownType
  | some c =>
    match alookup c.subObjects subtype with
    | none => .error .UnknownSubtype
    | some h => .ok h

/-- Modelled from the spec: string `getHandlerFor(typeStr, subtypeStr)`,
"resolved through the reverse maps": find the container carrying the
qualified type identifier, resolve the subtype string through its
`subIds` map, then look the resolved subtype up in `subObjects`. -/
def CObjectClassesHandler.getHandlerForStr (reg : CObjectClassesHandler)
    (type subtype : String) : Except RegistryError AObjectTypeHandler :=
  match reg.objects.find? (fun p => p.2.identifier == type) with
  | none => .error .UnknownType
  | some p =>
    match alookup p.2.subIds subtype with
    | none => .error .UnknownSubtype
    | some sid =>
      match alookup p.2.subObjects sid with
      | none => .error .UnknownSubtype
      | some h => .ok h

/-! Serialization models.

The `serialize` member templates are given inline in the header, so
they are translated directly from the source.  Two views are used: a
field-trace view (which fields the stream carries at a given format
version, in order) and a value-level read/write view for the
container, used for the frame property about the `id` field. -/

/-- The fields of `AObjectTypeHandler` that can appear in a serialized
stream. -/
inductive HandlerField
  | type
  | subtype
  | templates
  | rmgInfo
  | objectName
  | typeName
  | subTypeName
deriving DecidableEq, Repr

/-- Source `AObjectTypeHandler::serialize` from the header:
`h & type & subtype & templates & rmgInfo & objectName;` always, then
`h & typeName & subTypeName;` only `if(version >= 759)`. -/
def AObjectTypeHandler.serializedFields (version : Int) : List HandlerField :=
  [.type, .subtype, .templates, .rmgInfo, .objectName]
    ++ (if 759 ≤ version then [.typeName, .subTypeName] else [])

/-- The fields of `ObjectContainter` that could appear in a serialized
stream (`id` is listed so that its absence is expressible). -/
inductive ContainerField
  | id
  | identifier
  | name
  | handlerName
  | base
  | subObjects
  | subIds
deriving DecidableEq, Repr

/-- Source `ObjectContainter::serialize` from the header:
`h & name & handlerName & base & subObjects;` always, then
`h & identifier & subIds;` only `if(version >= 759)`. -/
def ObjectContainter.serializedFields (version : Int) : List ContainerField :=
  [.name, .handlerName, .base, .subObjects]
    ++ (if 759 ≤ version then [.identifier, .subIds] else [])

/-- Value-level content of a serialized `ObjectContainter`: the four
unconditional fields, plus the string-identifier fields only when the
format version reaches the gate. -/
structure ContainerStream where
  name : String
  handlerName : String
  base : JsonNode
  subObjects : List (Int × AObjectTypeHandler)
  stringFields : Option (String × List (String × Int))
deriving DecidableEq, Repr

/-- Writing side of `ObjectContainter::serialize`: the stream carries
`name`, `handlerName`, `base`, `subObjects`, and (for versions at or
above 759) `identifier` and `subIds`; never `id`. -/
def ObjectContainter.writeStream (c : ObjectContainter) (version : Int) : ContainerStream :=
  { name := c.name, handlerName := c.handlerName, base := c.base,
    subObjects := c.subObjects,
    stringFields := if 759 ≤ version then some (c.identifier, c.subIds) else none }

/-- Reading side of `ObjectContainter::serialize`: deserialization
assigns the streamed fields into the target container; fields absent
from the stream (always `id`; also `identifier`/`subIds` below version
759) keep the target's values. -/
def ObjectContainter.readStream (target : ObjectContainter) (s : ContainerStream) :
    ObjectContainter :=
  { target with
    name := s.name, handlerName := s.handlerName, base := s.base,
    subObjects := s.subObjects,
    identifier := match s.stringFields with
      | some (i, _) => i
      | none => target.identifier,
    subIds := match s.stringFields with
      | some (_, m) => m
      | none => target.subIds }

/-- Source `CObjectClassesHandler::serialize` from the header: `h & objects;`
— the registry stream is exactly the keyed map of container streams. -/
def CObjectClassesHandler.writeStream (reg : CObjectClassesHandler) (version : Int) :
    List (Int × ContainerStream) :=
  reg.objects.map (fun p => (p.1, p.2.writeStream version))

/-- Reading side of `CObjectClassesHandler::serialize`: each container
is deserialized into a default-constructed target under the key read
from the stream. -/
def CObjectClassesHandler.readStream (s : List (Int × ContainerStream)) :
    CObjectClassesHandler :=
  { objects := s.map (fun p => (p.1, ObjectContainter.fresh.readStream p.2)) }

/-! Further association-list lemmas. -/

theorem mem_akeys_of_pair {α β : Type} {l : List (α × β)} {k : α} {v : β}
    (h : (k, v) ∈ l) : k ∈ akeys l :=
  List.mem_map.mpr ⟨(k, v), h, rfl⟩

theorem akeys_aerase_sublist {α β : Type} [DecidableEq α] (l : List (α × β)) (k : α) :
    (akeys (aerase l k)).Sublist (akeys l) :=
  List.Sublist.map _ (List.filter_sublist l)

theorem mem_akeys_aerase {α β : Type} [DecidableEq α] {l : List (α × β)} {k a : α} :
    a ∈ akeys (aerase l k) ↔ a ∈ akeys l ∧ a ≠ k := by
  simp only [akeys, aerase, List.mem_map, List.mem_filter, bne_iff_ne]
  constructor
  · rintro ⟨p, ⟨hp, hne⟩, rfl⟩
    exact ⟨⟨p, hp, rfl⟩, hne⟩
  · rintro ⟨⟨p, hp, rfl⟩, hne⟩
    exact ⟨p, ⟨hp, hne⟩, rfl⟩

theorem akeys_ainsert_nodup {α β : Type} [DecidableEq α] {l : List (α × β)}
    (h : (akeys l).Nodup) (k : α) (v : β) : (akeys (ainsert l k v)).Nodup := by
  have h₁ : (akeys (aerase l k)).Nodup := (akeys_aerase_sublist l k).nodup h
  have h₂ : k ∉ akeys (aerase l k) := fun hm => (mem_akeys_aerase.mp hm).2 rfl
  show (k :: akeys (aerase l k)).Nodup
  exact List.nodup_cons.mpr ⟨h₂, h₁⟩

theorem mem_akeys_ainsert {α β : Type} [DecidableEq α] {l : List (α × β)} {k a : α} {v : β} :
    a ∈ akeys (ainsert l k v) ↔ a = k ∨ a ∈ akeys l := by
  show a ∈ k :: akeys (aerase l k) ↔ _
  rw [List.mem_cons, mem_akeys_aerase]
  constructor
  · rintro (h | h)
    · exact Or.inl h
    · exact Or.inr h.1
  · rintro (h | h)
    · exact Or.inl h
    · by_cases hk : a = k
      · exact Or.inl hk
      · exact Or.inr ⟨h, hk⟩

theorem mem_of_mem_aerase {α β : Type} [DecidableEq α] {l : List (α × β)} {k : α}
    {p : α × β} (h : p ∈ aerase l k) : p ∈ l :=
  List.mem_of_mem_filter h

theorem alookup_filter_val {α β : Type} [DecidableEq α] [DecidableEq β]
    {l : List (α × β)} {k : α} {v x : β}
    (h : alookup l k = some v) (hne : v ≠ x) :
    alookup (l.filter (fun p => p.2 != x)) k = some v := by
  induction l with
  | nil => simp [alookup] at h
  | cons p rest ih =>
    obtain ⟨k₁, v₁⟩ := p
    by_cases h₁ : k₁ = k
    · subst h₁
      simp [alookup] at h
      subst h
      simp [List.filter_cons, bne_iff_ne, hne, alookup]
    · simp only [alookup, if_neg h₁] at h
      by_cases h₂ : v₁ = x
      · simp [List.filter_cons, h₂, ih h]
      · simp [List.filter_cons, bne_iff_ne, h₂, alookup, h₁, ih h]

theorem alookup_of_mem_nodup {α β : Type} [DecidableEq α] {l : List (α × β)} {k : α}
    {v : β} (hn : (akeys l).Nodup) (hm : (k, v) ∈ l) : alookup l k = some v := by
  induction l with
  | nil => simp at hm
  | cons p rest ih =>
    obtain ⟨k₁, v₁⟩ := p
    rcases List.mem_cons.mp hm with h | h
    · cases h
      simp [alookup]
    · have hn' : (akeys rest).Nodup := (List.nodup_cons.mp hn).2
      have hk : ¬ k₁ = k := by
        intro hh
        subst hh
        exact (List.nodup_cons.mp hn).1 (mem_akeys_of_pair h)
      simp [alookup, hk, ih hn' h]

/-! Invariants of reachable registry states. -/

/-- The per-container synchronization invariant (spec §3): every
subtype key in the owning `subObjects` map has a reverse entry in the
`subIds` map, and every `subIds` entry points at a registered subtype. -/
structure ContInv (c : ObjectContainter) : Prop where
  reverseTotal : ∀ s, s ∈ akeys c.subObjects → ∃ str, alookup c.subIds str = some s
  forwardSound : ∀ str v, (str, v) ∈ c.subIds → v ∈ akeys c.subObjects

/-- The registry-level invariant: the container map has well-formed
keys, qualified string identifiers determine the numeric type id
uniquely, and every container satisfies `ContInv`. -/
structure RegInv (reg : CObjectClassesHandler) : Prop where
  keysNodup : (akeys reg.objects).Nodup
  identInj : ∀ t₁ c₁ t₂ c₂, alookup reg.objects t₁ = some c₁ →
    alookup reg.objects t₂ = some c₂ → c₁.identifier = c₂.identifier → t₁ = t₂
  contOk : ∀ t c, alookup reg.objects t = some c → ContInv c

theorem not_registered_forall {reg : CObjectClassesHandler} {q : String}
    (h : reg.registeredName q = false) :
    ∀ p ∈ reg.objects, p.2.identifier ≠ q := by
  intro p hp heq
  have ht : reg.registeredName q = true := by
    simp only [CObjectClassesHandler.registeredName, List.any_eq_true]
    exact ⟨p, hp, by simp [heq]⟩
  rw [h] at ht
  cases ht

theorem regInv_insert_fresh {reg : CObjectClassesHandler} (inv : RegInv reg)
    {i : Int} {cont : ObjectContainter}
    (hname : ∀ p ∈ reg.objects, p.2.identifier ≠ cont.identifier)
    (hsub : cont.subObjects = []) (hsubids : cont.subIds = []) :
    RegInv { objects := ainsert reg.objects i cont } := by
  constructor
  · exact akeys_ainsert_nodup inv.keysNodup i cont
  · intro t₁ c₁ t₂ c₂ h₁ h₂ hid
    rw [alookup_ainsert] at h₁ h₂
    by_cases e₁ : i = t₁ <;> by_cases e₂ : i = t₂
    · rw [← e₁, ← e₂]
    · rw [if_pos e₁] at h₁
      rw [if_neg e₂] at h₂
      injection h₁ with h₁
      subst h₁
      exact absurd hid.symm (hname _ (alookup_mem h₂))
    · rw [if_neg e₁] at h₁
      rw [if_pos e₂] at h₂
      injection h₂ with h₂
      subst h₂
      exact absurd hid (hname _ (alookup_mem h₁))
    · rw [if_neg e₁] at h₁
      rw [if_neg e₂] at h₂
      exact inv.identInj t₁ c₁ t₂ c₂ h₁ h₂ hid
  · intro t c hlk
    rw [alookup_ainsert] at hlk
    by_cases e : i = t
    · rw [if_pos e] at hlk
      injection hlk with hlk
      subst hlk
      constructor
      · intro s hs
        rw [hsub] at hs
        simp [akeys] at hs
      · intro str v hv
        rw [hsubids] at hv
        simp at hv
    · rw [if_neg e] at hlk
      exact inv.contOk t c hlk

theorem regInv_replace {reg : CObjectClassesHandler} (inv : RegInv reg)
    {ID : Int} {c cont : ObjectContainter}
    (hc : alookup reg.objects ID = some c)
    (hidf : cont.identifier = c.identifier)
    (hcont : ContInv cont) :
    RegInv { objects := ainsert reg.objects ID cont } := by
  constructor
  · exact akeys_ainsert_nodup inv.keysNodup ID cont
  · intro t₁ c₁ t₂ c₂ h₁ h₂ hid
    rw [alookup_ainsert] at h₁ h₂
    by_cases e₁ : ID = t₁ <;> by_cases e₂ : ID = t₂
    · rw [← e₁, ← e₂]
    · rw [if_pos e₁] at h₁
      rw [if_neg e₂] at h₂
      injection h₁ with h₁
      subst h₁
      rw [← e₁]
      exact inv.identInj ID c t₂ c₂ hc h₂ (by rw [← hidf]; exact hid)
    · rw [if_neg e₁] at h₁
      rw [if_pos e₂] at h₂
      injection h₂ with h₂
      subst h₂
      rw [← e₂]
      exact (inv.identInj ID c t₁ c₁ hc h₁ (by rw [← hidf]; exact hid.symm)).symm
    · rw [if_neg e₁] at h₁
      rw [if_neg e₂] at h₂
      exact inv.identInj t₁ c₁ t₂ c₂ h₁ h₂ hid
  · intro t cc hlk
    rw [alookup_ainsert] at hlk
    by_cases e : ID = t
    · rw [if_pos e] at hlk
      injection hlk with hlk
      subst hlk
      exact hcont
    · rw [if_neg e] at hlk
      exact inv.contOk t cc hlk

theorem contInv_insert {c : ObjectContainter} (invC : ContInv c)
    {identifier : String} {sid : Int} {hh : AObjectTypeHandler}
    (hres : ∀ s, alookup c.subIds identifier = some s → sid = s) :
    ContInv { c with subObjects := ainsert c.subObjects sid hh,
                     subIds := ainsert c.subIds identifier sid } := by
  constructor
  · intro s hs
    rcases mem_akeys_ainsert.mp hs with hs | hs
    · subst hs
      exact ⟨identifier, by rw [alookup_ainsert, if_pos rfl]⟩
    · obtain ⟨str, hstr⟩ := invC.reverseTotal s hs
      by_cases he : identifier = str
      · subst he
        have : sid = s := hres s hstr
        subst this
        exact ⟨identifier, by rw [alookup_ainsert, if_pos rfl]⟩
      · exact ⟨str, by rw [alookup_ainsert, if_neg he]; exact hstr⟩
  · intro str v hv
    rcases List.mem_cons.mp hv with hv | hv
    · injection hv with hv₁ hv₂
      subst hv₂
      exact mem_akeys_ainsert.mpr (Or.inl rfl)
    · have hv' : (str, v) ∈ c.subIds := mem_of_mem_aerase hv
      have := invC.forwardSound str v hv'
      exact mem_akeys_ainsert.mpr (Or.inr this)

theorem contInv_remove {c : ObjectContainter} (invC : ContInv c) (subID : Int) :
    ContInv { c with subObjects := aerase c.subObjects subID,
                     subIds := c.subIds.filter (fun p => p.2 != subID) } := by
  constructor
  · intro s hs
    obtain ⟨hs₁, hs₂⟩ := mem_akeys_aerase.mp hs
    obtain ⟨str, hstr⟩ := invC.reverseTotal s hs₁
    exact ⟨str, alookup_filter_val hstr hs₂⟩
  · intro str v hv
    rw [List.mem_filter] at hv
    obtain ⟨hv₁, hv₂⟩ := hv
    rw [bne_iff_ne] at hv₂
    exact mem_akeys_aerase.mpr ⟨invC.forwardSound str v hv₁, hv₂⟩

/-- Registry states reachable from the empty registry by any sequence
of (successful) `loadObject`, `loadSubObject` and `removeSubObject`
calls. -/
inductive Reachable : CObjectClassesHandler → Prop
  | empty : Reachable { objects := [] }
  | load (reg reg' : CObjectClassesHandler) (scope name : String) (data : JsonNode)
      (index : Option Int) (hr : Reachable reg)
      (h : reg.loadObject scope name data index = .ok reg') : Reachable reg'
  | loadSub (reg reg' : CObjectClassesHandler) (identifier : String) (config : JsonNode)
      (ID : Int) (subID : Option Int) (hr : Reachable reg)
      (h : reg.loadSubObject identifier config ID subID = .ok reg') : Reachable reg'
  | removeSub (reg : CObjectClassesHandler) (ID subID : Int) (hr : Reachable reg) :
      Reachable (reg.removeSubObject ID subID)

theorem regInv_loadObject {reg reg' : CObjectClassesHandler} {scope name : String}
    {data : JsonNode} {index : Option Int} (inv : RegInv reg)
    (h : reg.loadObject scope name data index = .ok reg') : RegInv reg' := by
  simp only [CObjectClassesHandler.loadObject] at h
  split at h
  · simp at h
  next hdup =>
    split at h
    · simp at h
    next hfree =>
      rw [Except.ok.injEq] at h
      subst h
      refine regInv_insert_fresh inv ?_ rfl rfl
      have hdup' : reg.registeredName (qualifiedName scope name) = false := by
        simpa using hdup
      exact not_registered_forall hdup'

theorem regInv_loadSubObject {reg reg' : CObjectClassesHandler} {ident : String}
    {config : JsonNode} {ID : Int} {subID : Option Int} (inv : RegInv reg)
    (h : reg.loadSubObject ident config ID subID = .ok reg') : RegInv reg' := by
  unfold CObjectClassesHandler.loadSubObject at h
  cases hc : alookup reg.objects ID with
  | none => simp [hc] at h
  | some c =>
    simp only [hc, Except.ok.injEq] at h
    subst h
    refine regInv_replace inv hc ?_ ?_
    · rfl
    · refine contInv_insert (inv.contOk ID c hc) ?_
      intro s hs
      simp [hs]

theorem regInv_removeSubObject {reg : CObjectClassesHandler} {ID subID : Int}
    (inv : RegInv reg) : RegInv (reg.removeSubObject ID subID) := by
  unfold CObjectClassesHandler.removeSubObject
  cases hc : alookup reg.objects ID with
  | none => exact inv
  | some c =>
    exact regInv_replace inv hc rfl (contInv_remove (inv.contOk ID c hc) subID)

/-- Every reachable registry state satisfies the registry invariant. -/
theorem regInv_of_reachable {reg : CObjectClassesHandler} (h : Reachable reg) :
    RegInv reg := by
  induction h with
  | empty =>
    constructor
    · simp [akeys]
    · intro t₁ c₁ t₂ c₂ h₁ h₂ hid
      simp [alookup] at h₁
    · intro t c hlk
      simp [alookup] at hlk
  | load reg reg' scope name data index hr h ih => exact regInv_loadObject ih h
  | loadSub reg reg' ident config ID subID hr h ih => exact regInv_loadSubObject ih h
  | removeSub reg ID subID hr ih => exact regInv_removeSubObject ih

/-- Under the registry invariant, the first container found by
qualified string identifier is exactly the container registered under
the numeric type id carrying that identifier. -/
theorem find_identifier_eq {reg : CObjectClassesHandler} (inv : RegInv reg)
    {t : Int} {c : ObjectContainter} (hc : alookup reg.objects t = some c) :
    reg.objects.find? (fun p => p.2.identifier == c.identifier) = some (t, c) := by
  cases hf : reg.objects.find? (fun p => p.2.identifier == c.identifier) with
  | none =>
    exfalso
    have := List.find?_eq_none.mp hf (t, c) (alookup_mem hc)
    simp at this
  | some p =>
    obtain ⟨tp, cp⟩ := p
    have hpred := List.find?_some hf
    have hmem := List.mem_of_find?_eq_some hf
    simp only [beq_iff_eq] at hpred
    have hlp : alookup reg.objects tp = some cp :=
      alookup_of_mem_nodup inv.keysNodup hmem
    have ht : tp = t := inv.identInj tp cp t c hlp hc hpred
    subst ht
    rw [hc] at hlp
    injection hlp with hlp
    rw [hlp]

/-! Concrete demonstration states, used by the witnesses. -/

/-- A concrete configuration fragment for a primary type. -/
def demoData : JsonNode := { name := "Dwelling", handlerName := "dwelling" }

/-- A concrete configuration fragment for a subtype. -/
def demoCfg : JsonNode := { name := "Elf Dwelling", handlerName := "" }

/-- Registry after registering primary type `core:dwelling` at id 5. -/
def demoReg1 : CObjectClassesHandler :=
  (CObjectClassesHandler.loadObject { objects := [] } "core" "dwelling" demoData
    (some 5)).toOption.getD { objects := [] }

/-- Registry after additionally registering subtype `core:elfDwelling`
under type 5 (auto-assigned subtype id 0). -/
def demoReg2 : CObjectClassesHandler :=
  (demoReg1.loadSubObject "core:elfDwelling" demoCfg 5 none).toOption.getD { objects := [] }

/-- The container registered at type id 5 in `demoReg2`. -/
def demoCont2 : ObjectContainter :=
  (alookup demoReg2.objects 5).getD ObjectContainter.fresh

theorem demoReg1_reachable : Reachable demoReg1 :=
  Reachable.load { objects := [] } demoReg1 "core" "dwelling" demoData (some 5)
    Reachable.empty rfl

theorem demoReg2_reachable : Reachable demoReg2 :=
  Reachable.loadSub demoReg1 demoReg2 "core:elfDwelling" demoCfg 5 none
    demoReg1_reachable rfl

/-! Claim theorems. -/

/-- Claim C1: for every registry state and every qualified name
already registered, calling `loadObject` again with that qualified
name (either overload: `index = none` or an explicit index) fails with
a `DuplicateDefinition` error and never returns a new registry; in
this state-passing model the caller therefore keeps the registry value
it held before the call, so `knownObjects`, `knownSubObjects`, every
handler and every name mapping are exactly as before — the existing
entry is never silently overwritten. -/
theorem loadObject_duplicate_fails (reg : CObjectClassesHandler) (scope name : String)
    (data : JsonNode) (index : Option Int)
    (h : reg.registeredName (qualifiedName scope name) = true) :
    reg.loadObject scope name data index = .error .DuplicateDefinition := by
  simp [CObjectClassesHandler.loadObject, h]

theorem loadObject_duplicate_fails_witness :
    demoReg1.registeredName (qualifiedName "core" "dwelling") = true ∧
    demoReg1.loadObject "core" "dwelling" demoData none = .error .DuplicateDefinition :=
  ⟨by decide,
   loadObject_duplicate_fails demoReg1 "core" "dwelling" demoData none (by decide)⟩

/-- Under the registry invariant, a numeric registration together with
its recorded string identifiers makes the string lookup succeed with
the very handler the numeric lookup returns. -/
theorem getHandlerForStr_eq {reg : CObjectClassesHandler} {t : Int}
    {c : ObjectContainter} (inv : RegInv reg)
    (hc : alookup reg.objects t = some c) {str : String} {s : Int}
    (hstr : alookup c.subIds str = some s) {h : AObjectTypeHandler}
    (hh : alookup c.subObjects s = some h) :
    reg.getHandlerForStr c.identifier str = .ok h := by
  unfold CObjectClassesHandler.getHandlerForStr
  simp [find_identifier_eq inv hc, hstr, hh]

/-- Claim C2: for every (type, subtype) pair registered in a reachable
registry state, the numeric lookup `getHandlerFor(type, subtype)` and
the string lookup `getHandlerFor(typeStr, subtypeStr)` — where
`typeStr`/`subtypeStr` are the qualified string identifiers recorded
for that pair — both succeed and return handlers whose identity fields
(`type`, `subtype`, `typeName`, `subTypeName`) are identical. -/
theorem getHandlerFor_string_numeric_agree (reg : CObjectClassesHandler)
    (hre : Reachable reg) (t : Int) (c : ObjectContainter)
    (hc : alookup reg.objects t = some c) (s : Int) (hs : s ∈ akeys c.subObjects) :
    ∃ str h h', alookup c.subIds str = some s ∧
      reg.getHandlerFor t s = .ok h ∧
      reg.getHandlerForStr c.identifier str = .ok h' ∧
      h'.type = h.type ∧ h'.subtype = h.subtype ∧
      h'.typeName = h.typeName ∧ h'.subTypeName = h.subTypeName := by
  have inv := regInv_of_reachable hre
  obtain ⟨str, hstr⟩ := (inv.contOk t c hc).reverseTotal s hs
  obtain ⟨h, hh⟩ := mem_akeys_alookup hs
  refine ⟨str, h, h, hstr, ?_, ?_, rfl, rfl, rfl, rfl⟩
  · simp [CObjectClassesHandler.getHandlerFor, hc, hh]
  · exact getHandlerForStr_eq inv hc hstr hh

theorem getHandlerFor_string_numeric_agree_witness :
    ∃ str h h', alookup demoCont2.subIds str = some 0 ∧
      demoReg2.getHandlerFor 5 0 = .ok h ∧
      demoReg2.getHandlerForStr demoCont2.identifier str = .ok h' ∧
      h'.type = h.type ∧ h'.subtype = h.subtype ∧
      h'.typeName = h.typeName ∧ h'.subTypeName = h.subTypeName :=
  getHandlerFor_string_numeric_agree demoReg2 demoReg2_reachable 5 demoCont2
    (by decide) 0 (by decide)

/-- Claim C3: in every registry state reachable by any sequence of
`loadObject`, `loadSubObject` and `removeSubObject` operations, each
per-type container keeps its two maps synchronized: every subtype key
present in the owning `subObjects` map has a corresponding reverse
entry in the string-id `subIds` map mapping some qualified string
identifier to that subtype. -/
theorem subObjects_subIds_synchronized (reg : CObjectClassesHandler)
    (hre : Reachable reg) (t : Int) (c : ObjectContainter)
    (hc : alookup reg.objects t = some c) (s : Int) (hs : s ∈ akeys c.subObjects) :
    ∃ str, alookup c.subIds str = some s :=
  ((regInv_of_reachable hre).contOk t c hc).reverseTotal s hs

theorem subObjects_subIds_synchronized_witness :
    ∃ str, alookup demoCont2.subIds str = some 0 :=
  subObjects_subIds_synchronized demoReg2 demoReg2_reachable 5 demoCont2
    (by decide) 0 (by decide)

/-- Claim C4: for every registered pair (t, s), after
`removeSubObject(t, s)`: `getHandlerFor(t, s)` fails with
`UnknownSubtype`, `knownSubObjects(t)` no longer contains `s`, and
every reverse string-id entry for that subtype is removed from the
container's string-id map. -/
theorem removeSubObject_unregisters (reg : CObjectClassesHandler) (t s : Int)
    (c : ObjectContainter) (hc : alookup reg.objects t = some c)
    (_hs : s ∈ akeys c.subObjects) :
    (reg.removeSubObject t s).getHandlerFor t s = .error .UnknownSubtype ∧
    s ∉ (reg.removeSubObject t s).knownSubObjects t ∧
    (∀ c' str, alookup (reg.removeSubObject t s).objects t = some c' →
      (str, s) ∉ c'.subIds) := by
  have hobj : (reg.removeSubObject t s).objects
      = ainsert reg.objects t
        { c with subObjects := aerase c.subObjects s,
                 subIds := c.subIds.filter (fun p => p.2 != s) } := by
    simp [CObjectClassesHandler.removeSubObject, hc]
  have hl : alookup (reg.removeSubObject t s).objects t
      = some { c with subObjects := aerase c.subObjects s,
                      subIds := c.subIds.filter (fun p => p.2 != s) } := by
    rw [hobj, alookup_ainsert, if_pos rfl]
  refine ⟨?_, ?_, ?_⟩
  · have hnone : alookup (aerase c.subObjects s) s = none := by
      rw [alookup_aerase, if_pos rfl]
    simp [CObjectClassesHandler.getHandlerFor, hl, hnone]
  · intro hmem
    rw [CObjectClassesHandler.knownSubObjects, hl] at hmem
    exact (mem_akeys_aerase.mp hmem).2 rfl
  · intro c' str hlk hmem
    rw [hl] at hlk
    injection hlk with hlk
    subst hlk
    rw [List.mem_filter] at hmem
    have := hmem.2
    rw [bne_iff_ne] at this
    exact this rfl

theorem removeSubObject_unregisters_witness :
    (demoReg2.removeSubObject 5 0).getHandlerFor 5 0 = .error .UnknownSubtype ∧
    0 ∉ (demoReg2.removeSubObject 5 0).knownSubObjects 5 ∧
    ("core:elfDwelling", 0) ∉
      ((alookup (demoReg2.removeSubObject 5 0).objects 5).getD
        ObjectContainter.fresh).subIds :=
  ⟨(removeSubObject_unregisters demoReg2 5 0 demoCont2 (by decide) (by decide)).1,
   (removeSubObject_unregisters demoReg2 5 0 demoCont2 (by decide) (by decide)).2.1,
   (removeSubObject_unregisters demoReg2 5 0 demoCont2 (by decide) (by decide)).2.2
     ((alookup (demoReg2.removeSubObject 5 0).objects 5).getD ObjectContainter.fresh)
     "core:elfDwelling" (by decide)⟩

/-- Claim C5: serialization is version-gated at the fixed threshold
759: at or above it, a serialized `AObjectTypeHandler` additionally
carries `typeName` and `subTypeName` and a serialized container
additionally carries its string `identifier` and its `subIds` map;
strictly below it none of these string-identifier fields are written
or read, while `type`, `subtype`, `templates`, `rmgInfo`, the optional
`objectName`, the human-readable `name`, `handlerName`, the `base`
config and the `subObjects` map are carried in every version. -/
theorem serialize_version_gated (v : Int) :
    (759 ≤ v →
      HandlerField.typeName ∈ AObjectTypeHandler.serializedFields v ∧
      HandlerField.subTypeName ∈ AObjectTypeHandler.serializedFields v ∧
      ContainerField.identifier ∈ ObjectContainter.serializedFields v ∧
      ContainerField.subIds ∈ ObjectContainter.serializedFields v) ∧
    (v < 759 →
      HandlerField.typeName ∉ AObjectTypeHandler.serializedFields v ∧
      HandlerField.subTypeName ∉ AObjectTypeHandler.serializedFields v ∧
      ContainerField.identifier ∉ ObjectContainter.serializedFields v ∧
      ContainerField.subIds ∉ ObjectContainter.serializedFields v) ∧
    (HandlerField.type ∈ AObjectTypeHandler.serializedFields v ∧
     HandlerField.subtype ∈ AObjectTypeHandler.serializedFields v ∧
     HandlerField.templates ∈ AObjectTypeHandler.serializedFields v ∧
     HandlerField.rmgInfo ∈ AObjectTypeHandler.serializedFields v ∧
     HandlerField.objectName ∈ AObjectTypeHandler.serializedFields v ∧
     ContainerField.name ∈ ObjectContainter.serializedFields v ∧
     ContainerField.handlerName ∈ ObjectContainter.serializedFields v ∧
     ContainerField.base ∈ ObjectContainter.serializedFields v ∧
     ContainerField.subObjects ∈ ObjectContainter.serializedFields v) := by
  refine ⟨?_, ?_, ?_⟩
  · intro h
    simp [AObjectTypeHandler.serializedFields, ObjectContainter.serializedFields, h]
  · intro h
    have h' : ¬ (759 : Int) ≤ v := by omega
    simp [AObjectTypeHandler.serializedFields, ObjectContainter.serializedFields, h']
  · simp [AObjectTypeHandler.serializedFields, ObjectContainter.serializedFields]

theorem serialize_version_gated_witness :
    (HandlerField.typeName ∈ AObjectTypeHandler.serializedFields 759 ∧
     HandlerField.subTypeName ∈ AObjectTypeHandler.serializedFields 759 ∧
     ContainerField.identifier ∈ ObjectContainter.serializedFields 759 ∧
     ContainerField.subIds ∈ ObjectContainter.serializedFields 759) ∧
    (HandlerField.typeName ∉ AObjectTypeHandler.serializedFields 758 ∧
     HandlerField.subTypeName ∉ AObjectTypeHandler.serializedFields 758 ∧
     ContainerField.identifier ∉ ObjectContainter.serializedFields 758 ∧
     ContainerField.subIds ∉ ObjectContainter.serializedFields 758) :=
  ⟨(serialize_version_gated 759).1 (by decide),
   (serialize_version_gated 758).2.1 (by decide)⟩

/-- Claim C6: for every handler state and every terrain type, the
terrain-filtered template list is a subsequence of the full template
list (same relative order) and contains exactly the templates whose
terrain mask accepts that terrain. -/
theorem getTemplates_terrain_filter (h : AObjectTypeHandler) (terrainType : Int) :
    (h.getTemplatesTerrain terrainType).Sublist h.getTemplates ∧
    ∀ t, t ∈ h.getTemplatesTerrain terrainType ↔
      (t ∈ h.getTemplates ∧ t.canBePlacedAt terrainType = true) := by
  constructor
  · exact List.filter_sublist _
  · intro t
    exact List.mem_filter

/-- Claim C7: a default-constructed capability descriptor reports zero
guards (all four strength components of both `minGuards` and
`maxGuards` are zero) and grants nothing (every capability predicate
returns false). -/
theorem defaultObjectInfo_no_capabilities :
    IObjectInfo.base.minGuards = CArmyStructure.mk 0 0 0 0 ∧
    IObjectInfo.base.maxGuards = CArmyStructure.mk 0 0 0 0 ∧
    IObjectInfo.base.givesResources = false ∧
    IObjectInfo.base.givesExperience = false ∧
    IObjectInfo.base.givesMana = false ∧
    IObjectInfo.base.givesMovement = false ∧
    IObjectInfo.base.givesPrimarySkills = false ∧
    IObjectInfo.base.givesSecondarySkills = false ∧
    IObjectInfo.base.givesArtifacts = false ∧
    IObjectInfo.base.givesCreatures = false ∧
    IObjectInfo.base.givesSpells = false ∧
    IObjectInfo.base.givesBonuses = false := by
  decide

/-- Claim C8: the ordering on army-strength estimates is by total
strength alone: `a < b` holds iff `a.totalStrength < b.totalStrength`,
regardless of the shooters/flyers/walkers components. -/
theorem armyStructure_lt_iff_total (t₁ s₁ f₁ w₁ t₂ s₂ f₂ w₂ : Nat) :
    CArmyStructure.lt ⟨t₁, s₁, f₁, w₁⟩ ⟨t₂, s₂, f₂, w₂⟩ = true ↔ t₁ < t₂ := by
  simp [CArmyStructure.lt]

/-- Claim C9: legacy definition entries are ordered lexicographically
by (id, subid): `a < b` iff `a.id < b.id`, or `a.id = b.id` and
`a.subid < b.subid`. -/
theorem cgDefInfo_lt_iff_lex (a b : CGDefInfo) :
    CGDefInfo.lt a b = true ↔
      (a.id < b.id ∨ (a.id = b.id ∧ a.subid < b.subid)) := by
  unfold CGDefInfo.lt
  by_cases h : a.id = b.id
  · simp [h]
  · simp [h]

/-- Claim C10: serializing and deserializing a per-type container
never writes or reads the container's own numeric `id` field: the
written stream is unchanged under any change of `id`, reading leaves
the target's `id` untouched, `id` is never among the serialized
container fields at any version, and a round-trip of the registry
preserves the key set of the type→container map while every container
it produces carries the deserialization target's default `id`,
independent of the id stored in the serialized container. -/
theorem serialize_omits_container_id (reg : CObjectClassesHandler) (v x : Int)
    (c target : ObjectContainter) (s : ContainerStream) :
    ObjectContainter.writeStream { c with id := x } v = c.writeStream v ∧
    (target.readStream s).id = target.id ∧
    ContainerField.id ∉ ObjectContainter.serializedFields v ∧
    akeys (CObjectClassesHandler.readStream (reg.writeStream v)).objects
      = akeys reg.objects ∧
    (CObjectClassesHandler.readStream (reg.writeStream v)).objects.map (fun p => p.2.id)
      = reg.objects.map (fun _ => ObjectContainter.fresh.id) := by
  refine ⟨rfl, rfl, ?_, ?_, ?_⟩
  · unfold ObjectContainter.serializedFields
    by_cases h : (759 : Int) ≤ v
    · simp [h]
    · simp [h]
  · unfold CObjectClassesHandler.readStream CObjectClassesHandler.writeStream akeys
    rw [List.map_map, List.map_map]
    rfl
  · unfold CObjectClassesHandler.readStream CObjectClassesHandler.writeStream
    rw [List.map_map, List.map_map]
    rfl
